import Mathlib

/-!
Verification development for the `ght` CLI (Get HTML Title).

The program fetches a web page, extracts the `<title>` element and prints it,
optionally as a Markdown link and optionally copied to the clipboard.  The
embedding below translates `main.go` into Lean: strings are lists of
characters, the HTTP client is an oracle mapping the fetched URL to a
response, and the platform process-execution capability used by the
clipboard writer is an oracle telling whether piping a given text to a given
command succeeds.
-/

namespace Ght

/-- Strings of the modelled program, as lists of characters. -/
abbrev Str := List Char

/-- Conversion from Lean string literals to the list-of-characters model. -/
def chars (s : String) : Str := s.data

/-- Go's `unicode.IsSpace` predicate (the white-space code points). -/
def goIsSpace (c : Char) : Bool :=
  c = '\t' || c = '\n' || c = Char.ofNat 11 || c = Char.ofNat 12 || c = '\r' ||
  c = ' ' || c = Char.ofNat 0x85 || c = Char.ofNat 0xA0 ||
  c = Char.ofNat 0x1680 ||
  (Char.ofNat 0x2000 ≤ c && c ≤ Char.ofNat 0x200A) ||
  c = Char.ofNat 0x2028 || c = Char.ofNat 0x2029 || c = Char.ofNat 0x202F ||
  c = Char.ofNat 0x205F || c = Char.ofNat 0x3000

/-- Go's `strings.TrimSpace`: drop leading and trailing white space. -/
def trimSpace (s : Str) : Str :=
  (((s.dropWhile goIsSpace).reverse).dropWhile goIsSpace).reverse

/-- Accumulator loop for `fields` (current word is held reversed in `acc`). -/
def fieldsAux : Str → Str → List Str
  | [], acc => if acc = [] then [] else [acc.reverse]
  | c :: rest, acc =>
    if goIsSpace c then
      if acc = [] then fieldsAux rest [] else acc.reverse :: fieldsAux rest []
    else fieldsAux rest (c :: acc)

/-- Go's `strings.Fields`: split around runs of white space. -/
def fields (s : Str) : List Str := fieldsAux s []

/-- Go's `strings.Join` with separator a single ASCII space. -/
def joinWithSpace : List Str → Str
  | [] => []
  | [w] => w
  | w :: ws => w ++ ' ' :: joinWithSpace ws

/-- Modelled from the spec: the HTML entity-decoding capability
(`html.UnescapeString` from the Go standard library, which the spec lists as
an external collaborator consumed as a black box).  The model decodes the
semicolon-terminated named references for ampersand, less-than, greater-than,
double quote, apostrophe and no-break space and leaves all other text,
including unrecognized references, unchanged. -/
def unescapeChars : Str → Str
  | [] => []
  | '&' :: 'a' :: 'm' :: 'p' :: ';' :: rest => '&' :: unescapeChars rest
  | '&' :: 'l' :: 't' :: ';' :: rest => '<' :: unescapeChars rest
  | '&' :: 'g' :: 't' :: ';' :: rest => '>' :: unescapeChars rest
  | '&' :: 'q' :: 'u' :: 'o' :: 't' :: ';' :: rest => '"' :: unescapeChars rest
  | '&' :: 'a' :: 'p' :: 'o' :: 's' :: ';' :: rest =>
      Char.ofNat 39 :: unescapeChars rest
  | '&' :: 'n' :: 'b' :: 's' :: 'p' :: ';' :: rest =>
      Char.ofNat 0xA0 :: unescapeChars rest
  | c :: rest => c :: unescapeChars rest

/-- Case-insensitive prefix test, the effect of the `(?i)` regex flag on the
literal parts of `titlePattern` (ASCII folding suffices for them). -/
def ciStartsWith : Str → Str → Bool
  | [], _ => true
  | _ :: _, [] => false
  | p :: ps, c :: cs => p.toLower = c.toLower && ciStartsWith ps cs

/-- Matching of the opening `<title[^>]*>` part of `titlePattern` at the head
of `s`: after the literal `<title`, the greedy `[^>]*` runs to the first `>`
(it can never cross one, and any shorter attempt leaves a non-`>` character
for the following literal `>`), so on success the remainder after that `>` is
returned. -/
def afterOpenTag (s : Str) : Option Str :=
  if ciStartsWith (chars "<title") s then
    match (s.drop 6).dropWhile (fun c => c ≠ '>') with
    | [] => none
    | _ :: rest => some rest
  else none

/-- Lazy `(.*?)</title>`: split at the first case-insensitive occurrence of
`</title>`, returning the text before it and the text after it. -/
def findCloseSplit : Str → Option (Str × Str)
  | [] => none
  | c :: rest =>
    if ciStartsWith (chars "</title>") (c :: rest) then
      some ([], (c :: rest).drop 8)
    else
      match findCloseSplit rest with
      | some (inner, after) => some (c :: inner, after)
      | none => none

/-- `titlePattern.FindSubmatch`: the first (leftmost) position at which the
whole pattern `(?is)<title[^>]*>(.*?)</title>` matches, returning the text
captured by the group.  A position where the opening tag matches but no
closing `</title>` follows is not a match of the whole pattern, so scanning
continues at the next position. -/
def findTitleSub : Str → Option Str
  | [] => none
  | c :: rest =>
    match afterOpenTag (c :: rest) with
    | some afterOpen =>
      match findCloseSplit afterOpen with
      | some (inner, _) => some inner
      | none => findTitleSub rest
    | none => findTitleSub rest

/-- Error message `titleタグが見つかりませんでした`. -/
def errNoTitle : Str := chars "titleタグが見つかりませんでした"

/-- Error message `titleが空でした`. -/
def errEmptyTitle : Str := chars "titleが空でした"

/-- Title extraction and normalization (`fetchTitle` lines 182–193): find the
first regex match, entity-decode the captured text, collapse white-space runs
to single spaces and trim, and fail if nothing matched or the result is
empty. -/
def extractTitle (body : Str) : Except Str Str :=
  match findTitleSub body with
  | none => .error errNoTitle
  | some inner =>
    let title := joinWithSpace (fields (unescapeChars inner))
    if title = [] then .error errEmptyTitle else .ok title

/-- The `io.LimitReader` cap on the response body: `2<<20` bytes. -/
def maxBodyBytes : Nat := 2 <<< 20

/-- Outcome of the HTTP GET for a given URL: a transport failure (with the
underlying error text), a response whose body read fails, or a response with
a fully readable body. -/
inductive HttpResult where
  | netError (msg : Str)
  | readError (statusCode : Nat) (status : Str) (msg : Str)
  | response (statusCode : Nat) (status : Str) (body : Str)

/-- Scheme normalization at the top of `fetchTitle`: prepend `https://` when
the URL has neither an `http://` nor an `https://` prefix. -/
def normalizeScheme (rawURL : Str) : Str :=
  if !((chars "http://").isPrefixOf rawURL) && !((chars "https://").isPrefixOf rawURL) then
    chars "https://" ++ rawURL
  else rawURL

/-- Error message for a transport failure, wrapping the underlying error. -/
def errFetch (msg : Str) : Str := chars "URLの取得に失敗しました: " ++ msg

/-- Error message for a non-2xx response, carrying the status text. -/
def errHTTP (status : Str) : Str := chars "HTTPエラー: " ++ status

/-- Error message for a body-read failure, wrapping the underlying error. -/
def errRead (msg : Str) : Str := chars "レスポンスの読み取りに失敗しました: " ++ msg

/-- `fetchTitle`: normalize the scheme, GET the URL through the `world`
oracle, reject non-2xx statuses, read at most `maxBodyBytes` of the body and
extract the title from what was read. -/
def fetchTitle (world : Str → HttpResult) (rawURL : Str) : Except Str Str :=
  match world (normalizeScheme rawURL) with
  | .netError msg => .error (errFetch msg)
  | .readError statusCode status msg =>
    if statusCode < 200 || 300 ≤ statusCode then .error (errHTTP status)
    else .error (errRead msg)
  | .response statusCode status body =>
    if statusCode < 200 || 300 ≤ statusCode then .error (errHTTP status)
    else extractTitle (body.take maxBodyBytes)

/-- The `stringFlag` struct: value of the URL flag and whether it was set. -/
structure StringFlag where
  value : Str
  flagSet : Bool
deriving DecidableEq, Repr

/-- The five results of `parseArgs`, bundled. -/
structure Parsed where
  help : Bool
  markdown : Bool
  copyOut : Bool
  urlArg : StringFlag
  positional : List Str
deriving DecidableEq, Repr

/-- The zero value of `Parsed` at the start of `parseArgs`. -/
def initParsed : Parsed := ⟨false, false, false, ⟨[], false⟩, []⟩

/-- Error message `missing URL value`. -/
def errMissingValue : Str := chars "missing URL value"

/-- Error message `unknown option`. -/
def errUnknownOption : Str := chars "unknown option"

/-- The inner loop of `parseArgs` over the runes of a combined short-option
cluster such as `-mc`.  `rest` is the list of tokens after the cluster token;
a `u` consumes the next unconsumed token as the URL value (Go advances the
outer index `i`), so the result carries how many tokens were consumed. -/
def parseClusterLoop : List Char → List Str → Parsed → Except Str (Parsed × Nat)
  | [], _, st => .ok (st, 0)
  | c :: cs, rest, st =>
    if c = 'h' then parseClusterLoop cs rest { st with help := true }
    else if c = 'm' then parseClusterLoop cs rest { st with markdown := true }
    else if c = 'c' then parseClusterLoop cs rest { st with copyOut := true }
    else if c = 'u' then
      match rest with
      | [] => .error errMissingValue
      | v :: rest' =>
        match parseClusterLoop cs rest' { st with urlArg := ⟨v, true⟩ } with
        | .error e => .error e
        | .ok (st', k) => .ok (st', k + 1)
    else .error errUnknownOption

/-- The main loop of `parseArgs` over the token list (the `switch` on each
argument).  A `-u`/`--url` token and a `u` inside a cluster consume the
following token as the flag value. -/
def parseLoop : List Str → Parsed → Except Str Parsed
  | [], st => .ok st
  | arg :: rest, st =>
    if arg = chars "-h" || arg = chars "--help" then
      parseLoop rest { st with help := true }
    else if arg = chars "-m" || arg = chars "--markdown" then
      parseLoop rest { st with markdown := true }
    else if arg = chars "-c" || arg = chars "--copy" then
      parseLoop rest { st with copyOut := true }
    else if arg = chars "-u" || arg = chars "--url" then
      match rest with
      | [] => .error errMissingValue
      | v :: rest' => parseLoop rest' { st with urlArg := ⟨v, true⟩ }
    else if (chars "--url=").isPrefixOf arg then
      parseLoop rest { st with urlArg := ⟨arg.drop 6, true⟩ }
    else if (chars "-u=").isPrefixOf arg then
      parseLoop rest { st with urlArg := ⟨arg.drop 3, true⟩ }
    else if ['-'].isPrefixOf arg && 1 < arg.length then
      match parseClusterLoop (arg.drop 1) rest st with
      | .error e => .error e
      | .ok (st', k) => parseLoop (rest.drop k) st'
    else
      parseLoop rest { st with positional := st.positional ++ [arg] }
termination_by toks _ => toks.length
decreasing_by all_goals (simp [List.length_drop]; try omega)

/-- `parseArgs`: run the token loop from the zero value. -/
def parseArgs (args : List Str) : Except Str Parsed :=
  parseLoop args initParsed

/-- Error message for supplying the URL both via flag and positionally. -/
def errConflict : Str := chars "URLは -u/--url か位置引数のどちらか一方で指定してください"

/-- Error message `URLが空です`. -/
def errEmptyURL : Str := chars "URLが空です"

/-- Error message `URLは1つだけ指定してください`. -/
def errOnlyOne : Str := chars "URLは1つだけ指定してください"

/-- Error message `URLを指定してください`. -/
def errRequired : Str := chars "URLを指定してください"

/-- `resolveURL`: reconcile the URL flag with the positional arguments. -/
def resolveURL (positional : List Str) (urlArg : StringFlag) : Except Str Str :=
  if urlArg.flagSet then
    if positional.length > 0 then .error errConflict
    else if trimSpace urlArg.value = [] then .error errEmptyURL
    else .ok urlArg.value
  else
    match positional with
    | [p] => if trimSpace p = [] then .error errEmptyURL else .ok p
    | _ :: _ :: _ => .error errOnlyOne
    | [] => .error errRequired

/-- The `usageText` constant. -/
def usageText : Str := chars
  "usage: ght [-h|--help] [-u|--url \"<value>\"] [-m|--markdown] [-c|--copy]\n\n           Get HTML Title\n\nArguments:\n\n  -h  --help      ヘルプ情報を表示\n  -u  --url       取得するURLを指定\n  -m  --markdown  Markdown形式で出力\n  -c  --copy      クリップボードにコピー\n"

/-- A clipboard helper command: executable name and arguments. -/
structure ClipboardCmd where
  name : Str
  args : List Str

/-- `clipboardCommands`: the platform-ordered candidate list. -/
def clipboardCommands (goos : Str) : List ClipboardCmd :=
  if goos = chars "darwin" then [⟨chars "pbcopy", []⟩]
  else if goos = chars "windows" then [⟨chars "clip", []⟩]
  else
    [⟨chars "wl-copy", []⟩,
     ⟨chars "xclip", [chars "-selection", chars "clipboard"]⟩,
     ⟨chars "xsel", [chars "--clipboard", chars "--input"]⟩]

/-- Error message for an exhausted clipboard candidate list. -/
def errClipboard : Str :=
  chars "supported clipboard command not found (pbcopy/xclip/xsel/wl-copy/clip)"

/-- The loop of `copyToClipboard` over the candidates: `pipe text name args`
abstracts `pipeToCommand` (path lookup, spawn, write, close, wait), true when
the whole pipeline succeeds. -/
def tryClipboard (pipe : Str → Str → List Str → Bool) (text : Str) :
    List ClipboardCmd → Except Str Unit
  | [] => .error errClipboard
  | c :: rest =>
    if pipe text c.name c.args then .ok () else tryClipboard pipe text rest

/-- `copyToClipboard`: try the platform candidates in order. -/
def copyToClipboard (goos : Str) (pipe : Str → Str → List Str → Bool)
    (text : Str) : Except Str Unit :=
  tryClipboard pipe text (clipboardCommands goos)

/-- The output formatting of `run` (lines 66–69): a Markdown link when the
markdown flag is set, the bare title otherwise. -/
def formatOutput (markdown : Bool) (title url : Str) : Str :=
  if markdown then chars "[" ++ title ++ chars "](" ++ url ++ chars ")"
  else title

/-- Observable outcome of one invocation: exit code and the text written to
the standard output and error streams. -/
structure RunResult where
  exitCode : Nat
  stdout : Str
  stderr : Str
deriving DecidableEq, Repr

/-- `run`: parse the arguments, handle help, resolve the URL, fetch the
title, print the (possibly Markdown-formatted) output and optionally copy it
to the clipboard.  `world` is the HTTP client oracle, `goos` the platform
name and `pipe` the process-execution oracle. -/
def run (world : Str → HttpResult) (goos : Str)
    (pipe : Str → Str → List Str → Bool) (args : List Str) : RunResult :=
  match parseArgs args with
  | .error _ => ⟨2, [], usageText⟩
  | .ok p =>
    if p.help then ⟨0, usageText, []⟩
    else
      match resolveURL p.positional p.urlArg with
      | .error e => ⟨2, [], e ++ ['\n'] ++ usageText⟩
      | .ok url =>
        match fetchTitle world url with
        | .error e => ⟨1, [], e ++ ['\n']⟩
        | .ok title =>
          let output := formatOutput p.markdown title url
          if p.copyOut then
            match copyToClipboard goos pipe output with
            | .error ce =>
              ⟨1, output ++ ['\n'], chars "clipboard copy failed: " ++ ce ++ ['\n']⟩
            | .ok _ => ⟨0, output ++ ['\n'], []⟩
          else ⟨0, output ++ ['\n'], []⟩

/-- Letters of the combined short clusters whose splitting the spec's
algebraic property is about. -/
def isHMC (c : Char) : Bool := c = 'h' || c = 'm' || c = 'c'

/-- Effect of one cluster letter from `{h, m, c}` on the parsed state. -/
def applyLetter (c : Char) (st : Parsed) : Parsed :=
  if c = 'h' then { st with help := true }
  else if c = 'm' then { st with markdown := true }
  else if c = 'c' then { st with copyOut := true }
  else st

/-- Effect of a sequence of cluster letters on the parsed state. -/
def applyLetters (cs : List Char) (st : Parsed) : Parsed :=
  cs.foldl (fun s c => applyLetter c s) st

/-- An HTTP oracle where every request fails at the transport level. -/
def nullWorld : Str → HttpResult := fun _ => .netError (chars "no such host")

/-- An HTTP oracle serving a page titled `Example` at
`https://example.com`. -/
def exampleWorld : Str → HttpResult := fun u =>
  if u = chars "https://example.com" then
    .response 200 (chars "200 OK") (chars "<title>Example</title>")
  else .netError (chars "no such host")

/-- A process-execution oracle on which every clipboard pipe fails. -/
def noPipe : Str → Str → List Str → Bool := fun _ _ _ => false

/-- The `linux` platform name. -/
def linuxOS : Str := chars "linux"

/-- An HTTP oracle serving a page with no `<title>` element. -/
def noTitleWorld : Str → HttpResult :=
  fun _ => .response 200 (chars "200 OK") (chars "<p>no title here</p>")

/-- An HTTP oracle serving a page whose title is blank. -/
def blankTitleWorld : Str → HttpResult :=
  fun _ => .response 200 (chars "200 OK") (chars "<title>   </title>")

end Ght

deriving instance DecidableEq for Except

namespace Ght

/-! ### Helper lemmas -/

theorem chars_dash_h : chars "-h" = ['-', 'h'] := rfl

theorem chars_dash_help : chars "--help" = ['-', '-', 'h', 'e', 'l', 'p'] := rfl

theorem chars_dash_m : chars "-m" = ['-', 'm'] := rfl

theorem chars_dash_markdown :
    chars "--markdown" = ['-', '-', 'm', 'a', 'r', 'k', 'd', 'o', 'w', 'n'] := rfl

theorem chars_dash_c : chars "-c" = ['-', 'c'] := rfl

theorem chars_dash_copy : chars "--copy" = ['-', '-', 'c', 'o', 'p', 'y'] := rfl

theorem chars_dash_u : chars "-u" = ['-', 'u'] := rfl

theorem chars_dash_url : chars "--url" = ['-', '-', 'u', 'r', 'l'] := rfl

theorem chars_dash_urlEq : chars "--url=" = ['-', '-', 'u', 'r', 'l', '='] := rfl

theorem chars_dash_uEq : chars "-u=" = ['-', 'u', '='] := rfl

/-- `trimSpace` erases a string exactly when it is all white space. -/
theorem trimSpace_eq_nil_iff (s : Str) :
    trimSpace s = [] ↔ ∀ c ∈ s, goIsSpace c := by
  unfold trimSpace
  rw [List.reverse_eq_nil_iff, List.dropWhile_eq_nil_iff]
  constructor
  · intro h c hc
    rcases List.mem_append.mp
        ((List.takeWhile_append_dropWhile (p := goIsSpace) (l := s)) ▸ hc) with hc' | hc'
    · exact List.mem_takeWhile_imp hc'
    · exact h _ (List.mem_reverse.mpr hc')
  · intro h c hc
    exact h c ((List.dropWhile_sublist goIsSpace).subset (List.mem_reverse.mp hc))

/-- The cluster loop on letters from `{h, m, c}` only sets the matching
boolean flags and consumes no extra token. -/
theorem parseClusterLoop_hmc (cs : List Char) (rest : List Str) (st : Parsed)
    (h : ∀ c ∈ cs, isHMC c) :
    parseClusterLoop cs rest st = .ok (applyLetters cs st, 0) := by
  induction cs generalizing st with
  | nil => simp [parseClusterLoop, applyLetters]
  | cons c cs ih =>
    have hc := h c (by simp)
    have hcs : ∀ c ∈ cs, isHMC c := fun d hd => h d (List.mem_cons_of_mem _ hd)
    rcases (by revert hc; simp [isHMC]; tauto : c = 'h' ∨ c = 'm' ∨ c = 'c') with h1 | h1 | h1 <;>
      subst h1 <;>
      simp +decide [parseClusterLoop, applyLetters, applyLetter, ih _ hcs]

/-- Processing one token made of a dash and letters from `{h, m, c}` (a
single short flag or a combined cluster) applies exactly those letters. -/
theorem parseLoop_cluster_tok (cs : List Char) (toks : List Str) (st : Parsed)
    (hne : cs ≠ []) (h : ∀ c ∈ cs, isHMC c) :
    parseLoop (('-' :: cs) :: toks) st = parseLoop toks (applyLetters cs st) := by
  match cs, hne with
  | [c], _ =>
    have hc := h c (by simp)
    rcases (by revert hc; simp [isHMC]; tauto : c = 'h' ∨ c = 'm' ∨ c = 'c') with h1 | h1 | h1 <;>
      subst h1 <;> rw [parseLoop.eq_def] <;>
      simp +decide [applyLetters, applyLetter]
  | c1 :: c2 :: cs', _ =>
    have hc1 := h c1 (by simp)
    have hrest : parseClusterLoop (c1 :: c2 :: cs') toks st
        = .ok (applyLetters (c1 :: c2 :: cs') st, 0) :=
      parseClusterLoop_hmc _ _ _ h
    rcases (by revert hc1; simp [isHMC]; tauto : c1 = 'h' ∨ c1 = 'm' ∨ c1 = 'c') with h1 | h1 | h1 <;>
      subst h1 <;> rw [parseLoop.eq_def] <;>
      simp +decide [chars_dash_h, chars_dash_help, chars_dash_m, chars_dash_markdown,
        chars_dash_c, chars_dash_copy, chars_dash_u, chars_dash_url, chars_dash_urlEq,
        chars_dash_uEq, List.isPrefixOf, hrest]

/-- The effect of a letter sequence from `{h, m, c}` on the parsed state
depends only on which of the three letters occur in it. -/
theorem applyLetters_eq (cs : List Char) (st : Parsed) (h : ∀ c ∈ cs, isHMC c) :
    applyLetters cs st =
      ⟨st.help || cs.contains 'h', st.markdown || cs.contains 'm',
       st.copyOut || cs.contains 'c', st.urlArg, st.positional⟩ := by
  induction cs generalizing st with
  | nil => simp [applyLetters]
  | cons c cs ih =>
    have hc := h c (by simp)
    have hcs : ∀ c ∈ cs, isHMC c := fun d hd => h d (List.mem_cons_of_mem _ hd)
    have step : applyLetters (c :: cs) st = applyLetters cs (applyLetter c st) := rfl
    rw [step, ih _ hcs]
    rcases (by revert hc; simp [isHMC]; tauto : c = 'h' ∨ c = 'm' ∨ c = 'c') with h1 | h1 | h1 <;>
      subst h1 <;>
      simp +decide [applyLetter, List.mem_cons]

/-- Processing a run of dash-prefixed `{h, m, c}` chunks applies the
concatenation of their letters. -/
theorem parseLoop_chunks (chunks : List (List Char)) (post : List Str) (st : Parsed)
    (h : ∀ ch ∈ chunks, ch ≠ [] ∧ ∀ c ∈ ch, isHMC c) :
    parseLoop (chunks.map (fun ch => '-' :: ch) ++ post) st
      = parseLoop post (applyLetters chunks.flatten st) := by
  induction chunks generalizing st with
  | nil => simp [applyLetters]
  | cons ch chunks ih =>
    obtain ⟨hne, hhmc⟩ := h ch (by simp)
    have h' : ∀ ch ∈ chunks, ch ≠ [] ∧ ∀ c ∈ ch, isHMC c :=
      fun d hd => h d (List.mem_cons_of_mem _ hd)
    simp only [List.map_cons, List.cons_append, List.flatten_cons]
    rw [parseLoop_cluster_tok ch _ st hne hhmc, ih _ h']
    simp [applyLetters, List.foldl_append]

/-- Unfolding of `run` when parsing succeeds, help is off and URL
resolution fails. -/
theorem run_resolve_error (world : Str → HttpResult) (goos : Str)
    (pipe : Str → Str → List Str → Bool) (args : List Str) (p : Parsed) (e : Str)
    (hp : parseArgs args = .ok p) (hh : p.help = false)
    (hr : resolveURL p.positional p.urlArg = .error e) :
    run world goos pipe args = ⟨2, [], e ++ ['\n'] ++ usageText⟩ := by
  unfold run
  rw [hp]
  simp [hh, hr]

/-- Unfolding of `run` when parsing and resolution succeed but the fetch
fails. -/
theorem run_fetch_error (world : Str → HttpResult) (goos : Str)
    (pipe : Str → Str → List Str → Bool) (args : List Str) (p : Parsed)
    (url e : Str)
    (hp : parseArgs args = .ok p) (hh : p.help = false)
    (hr : resolveURL p.positional p.urlArg = .ok url)
    (hf : fetchTitle world url = .error e) :
    run world goos pipe args = ⟨1, [], e ++ ['\n']⟩ := by
  unfold run
  rw [hp]
  simp [hh, hr, hf]

/-- Unfolding of `run` on full success with the copy flag off. -/
theorem run_success_nocopy (world : Str → HttpResult) (goos : Str)
    (pipe : Str → Str → List Str → Bool) (args : List Str) (p : Parsed)
    (url title : Str)
    (hp : parseArgs args = .ok p) (hh : p.help = false)
    (hr : resolveURL p.positional p.urlArg = .ok url)
    (hf : fetchTitle world url = .ok title) (hc : p.copyOut = false) :
    run world goos pipe args
      = ⟨0, formatOutput p.markdown title url ++ ['\n'], []⟩ := by
  unfold run
  rw [hp]
  simp [hh, hr, hf, hc]

/-- Unfolding of `run` on full success with the copy flag on and a failing
clipboard step. -/
theorem run_success_copy_fail (world : Str → HttpResult) (goos : Str)
    (pipe : Str → Str → List Str → Bool) (args : List Str) (p : Parsed)
    (url title ce : Str)
    (hp : parseArgs args = .ok p) (hh : p.help = false)
    (hr : resolveURL p.positional p.urlArg = .ok url)
    (hf : fetchTitle world url = .ok title) (hc : p.copyOut = true)
    (hclip : copyToClipboard goos pipe (formatOutput p.markdown title url) = .error ce) :
    run world goos pipe args
      = ⟨1, formatOutput p.markdown title url ++ ['\n'],
          chars "clipboard copy failed: " ++ ce ++ ['\n']⟩ := by
  unfold run
  rw [hp]
  simp [hh, hr, hf, hc, hclip]

/-- Unfolding of `run` on full success with the copy flag on and a
succeeding clipboard step. -/
theorem run_success_copy_ok (world : Str → HttpResult) (goos : Str)
    (pipe : Str → Str → List Str → Bool) (args : List Str) (p : Parsed)
    (url title : Str)
    (hp : parseArgs args = .ok p) (hh : p.help = false)
    (hr : resolveURL p.positional p.urlArg = .ok url)
    (hf : fetchTitle world url = .ok title) (hc : p.copyOut = true)
    (hclip : copyToClipboard goos pipe (formatOutput p.markdown title url) = .ok ()) :
    run world goos pipe args
      = ⟨0, formatOutput p.markdown title url ++ ['\n'], []⟩ := by
  unfold run
  rw [hp]
  simp [hh, hr, hf, hc, hclip]

/-- When every candidate pipe fails, the clipboard loop reports the
aggregate error. -/
theorem tryClipboard_all_fail (pipe : Str → Str → List Str → Bool) (text : Str)
    (l : List ClipboardCmd) (h : ∀ c ∈ l, pipe text c.name c.args = false) :
    tryClipboard pipe text l = .error errClipboard := by
  induction l with
  | nil => rfl
  | cons c rest ih =>
    have hc := h c (by simp)
    have hrest : ∀ c ∈ rest, pipe text c.name c.args = false :=
      fun d hd => h d (List.mem_cons_of_mem _ hd)
    simp [tryClipboard, hc, ih hrest]

end Ght

namespace Ght

/-! ### Claims -/

/-- C1, counterexample: with the markdown flag and the schemeless URL
`example.com`, the program prints `[Example](example.com)` — the raw
user-supplied string — although the fetch used the scheme-normalized
`https://example.com`, so the output is not
`[Example](https://example.com)` as the claim requires. -/
theorem c1_markdown_raw_url_cex :
    run exampleWorld linuxOS noPipe [chars "-m", chars "example.com"]
        = ⟨0, chars "[Example](example.com)" ++ ['\n'], []⟩
    ∧ normalizeScheme (chars "example.com") = chars "https://example.com"
    ∧ chars "[Example](example.com)" ++ ['\n']
        ≠ chars "[Example](https://example.com)" ++ ['\n'] := by
  refine ⟨?_, by decide, by decide⟩
  simp +decide [run, parseArgs, parseLoop, initParsed, resolveURL, fetchTitle,
    exampleWorld, normalizeScheme, extractTitle, formatOutput, chars, trimSpace,
    maxBodyBytes]

/-- C1, amended: with the markdown flag set and a successful fetch, the
output on stdout is `[<title>](<url>)` where `<url>` is the resolver's
output exactly as the user supplied it (scheme normalization is applied only
to the URL given to the HTTP client, not to the displayed one). -/
theorem c1_markdown_output_uses_resolver_url
    (args : List Str) (p : Parsed) (world : Str → HttpResult) (goos : Str)
    (pipe : Str → Str → List Str → Bool) (url title : Str)
    (hp : parseArgs args = .ok p) (hh : p.help = false)
    (hr : resolveURL p.positional p.urlArg = .ok url)
    (h1 : (chars "http://").isPrefixOf url = false)
    (h2 : (chars "https://").isPrefixOf url = false)
    (hm : p.markdown = true)
    (hf : fetchTitle world url = .ok title) :
    (run world goos pipe args).stdout
      = chars "[" ++ title ++ chars "](" ++ url ++ chars ")" ++ ['\n'] := by
  cases hcopy : p.copyOut with
  | false =>
    rw [run_success_nocopy world goos pipe args p url title hp hh hr hf hcopy]
    simp [formatOutput, hm]
  | true =>
    cases hclip : copyToClipboard goos pipe (formatOutput p.markdown title url) with
    | error ce =>
      rw [run_success_copy_fail world goos pipe args p url title ce hp hh hr hf hcopy hclip]
      simp [formatOutput, hm]
    | ok u =>
      cases u
      rw [run_success_copy_ok world goos pipe args p url title hp hh hr hf hcopy hclip]
      simp [formatOutput, hm]

/-- Witness for the amended C1 at a concrete invocation. -/
theorem c1_markdown_output_uses_resolver_url_witness :
    (run exampleWorld linuxOS noPipe [chars "-m", chars "example.com"]).stdout
      = chars "[" ++ chars "Example" ++ chars "](" ++ chars "example.com" ++ chars ")" ++ ['\n'] :=
  c1_markdown_output_uses_resolver_url [chars "-m", chars "example.com"]
    ⟨false, true, false, ⟨[], false⟩, [chars "example.com"]⟩
    exampleWorld linuxOS noPipe (chars "example.com") (chars "Example")
    (by simp +decide [parseArgs, parseLoop, initParsed]) rfl (by decide)
    (by decide) (by decide) rfl (by decide)

end Ght

namespace Ght

/-- C2: when the first title match captures inner text `t`, the fetcher
returns `t` entity-decoded and then white-space-normalized (runs collapsed
to single ASCII spaces, ends trimmed); in particular
`<TITLE>  Hello   World  </TITLE>` yields exactly `Hello World`, a title
containing `&amp;` yields a literal `&`, and embedded newlines and tabs are
collapsed as well. -/
theorem c2_title_normalization :
    (∀ body inner : Str, findTitleSub body = some inner →
      joinWithSpace (fields (unescapeChars inner)) ≠ [] →
      extractTitle body = .ok (joinWithSpace (fields (unescapeChars inner))))
    ∧ extractTitle (chars "<TITLE>  Hello   World  </TITLE>")
        = .ok (chars "Hello World")
    ∧ extractTitle (chars "<title>Fish &amp; Chips</title>")
        = .ok (chars "Fish & Chips")
    ∧ (chars "Fish & Chips").contains '&' = true
    ∧ extractTitle (chars "<title>\n  A\t B\nC </title>") = .ok (chars "A B C") := by
  refine ⟨?_, by decide, by decide, by decide, by decide⟩
  intro body inner h1 h2
  simp [extractTitle, h1, h2]

/-- Witness for C2 at a concrete body. -/
theorem c2_title_normalization_witness :
    extractTitle (chars "<title>T</title>")
      = .ok (joinWithSpace (fields (unescapeChars (chars "T")))) :=
  c2_title_normalization.1 (chars "<title>T</title>") (chars "T")
    (by decide) (by decide)

/-- C3, counterexample: the argument set `-h -u x y` supplies the URL flag
together with a positional argument, yet the program exits with status 0
(help short-circuits before URL resolution), not 2 as the claim states. -/
theorem c3_conflict_help_cex :
    parseArgs [chars "-h", chars "-u", chars "x", chars "y"]
        = .ok ⟨true, false, false, ⟨chars "x", true⟩, [chars "y"]⟩
    ∧ run nullWorld linuxOS noPipe [chars "-h", chars "-u", chars "x", chars "y"]
        = ⟨0, usageText, []⟩ := by
  constructor
  · simp +decide [parseArgs, parseLoop, initParsed]
  · simp +decide [run, parseArgs, parseLoop, initParsed]

/-- C3, amended: the resolver rejects every state with the URL flag set and
at least one positional with the conflict error, regardless of the flag's
value or the positionals' contents; and whenever such a state is reached
with the help flag not set, the program exits with status 2 after printing
the conflict message and the usage text. -/
theorem c3_url_conflict_rejected :
    (∀ (positional : List Str) (urlArg : StringFlag), urlArg.flagSet = true →
      positional ≠ [] → resolveURL positional urlArg = .error errConflict)
    ∧ (∀ (args : List Str) (p : Parsed) (world : Str → HttpResult) (goos : Str)
        (pipe : Str → Str → List Str → Bool),
        parseArgs args = .ok p → p.help = false →
        p.urlArg.flagSet = true → p.positional ≠ [] →
        run world goos pipe args = ⟨2, [], errConflict ++ ['\n'] ++ usageText⟩) := by
  have hres : ∀ (positional : List Str) (urlArg : StringFlag), urlArg.flagSet = true →
      positional ≠ [] → resolveURL positional urlArg = .error errConflict := by
    intro pos u hset hpos
    unfold resolveURL
    simp [hset, List.length_pos.mpr hpos]
  refine ⟨hres, ?_⟩
  intro args p world goos pipe hp hh hset hpos
  exact run_resolve_error world goos pipe args p errConflict hp hh (hres _ _ hset hpos)

/-- Witness for the amended C3 at a concrete invocation. -/
theorem c3_url_conflict_rejected_witness :
    run nullWorld linuxOS noPipe [chars "-u", chars "x", chars "y"]
      = ⟨2, [], errConflict ++ ['\n'] ++ usageText⟩ :=
  c3_url_conflict_rejected.2 [chars "-u", chars "x", chars "y"]
    ⟨false, false, false, ⟨chars "x", true⟩, [chars "y"]⟩ nullWorld linuxOS noPipe
    (by simp +decide [parseArgs, parseLoop, initParsed]) rfl rfl (by decide)

/-- C4, counterexample: with `-h -u " "` the URL value is whitespace-only,
yet the program exits with status 0 (help short-circuits before URL
resolution), not 2 as the claim states. -/
theorem c4_blank_url_help_cex :
    parseArgs [chars "-h", chars "-u", chars " "]
        = .ok ⟨true, false, false, ⟨chars " ", true⟩, []⟩
    ∧ (∀ c ∈ chars " ", goIsSpace c)
    ∧ run nullWorld linuxOS noPipe [chars "-h", chars "-u", chars " "]
        = ⟨0, usageText, []⟩ := by
  refine ⟨?_, by decide, ?_⟩
  · simp +decide [parseArgs, parseLoop, initParsed]
  · simp +decide [run, parseArgs, parseLoop, initParsed]

/-- C4, amended: the resolver rejects every whitespace-only URL value (via
the flag with no positionals, or as the single positional) with the
empty-URL error, accepts any such value containing a non-whitespace
character, and whenever resolution fails with the help flag not set the
program exits with status 2 printing the message and the usage text. -/
theorem c4_blank_url_rejected :
    (∀ v : Str, (∀ c ∈ v, goIsSpace c) →
      resolveURL [] ⟨v, true⟩ = .error errEmptyURL)
    ∧ (∀ (v : Str) (u : StringFlag), (∀ c ∈ v, goIsSpace c) → u.flagSet = false →
        resolveURL [v] u = .error errEmptyURL)
    ∧ (∀ v : Str, (∃ c ∈ v, ¬ goIsSpace c) → resolveURL [] ⟨v, true⟩ = .ok v)
    ∧ (∀ (v : Str) (u : StringFlag), (∃ c ∈ v, ¬ goIsSpace c) → u.flagSet = false →
        resolveURL [v] u = .ok v)
    ∧ (∀ (args : List Str) (p : Parsed) (world : Str → HttpResult) (goos : Str)
        (pipe : Str → Str → List Str → Bool) (e : Str),
        parseArgs args = .ok p → p.help = false →
        resolveURL p.positional p.urlArg = .error e →
        run world goos pipe args = ⟨2, [], e ++ ['\n'] ++ usageText⟩) := by
  have hne : ∀ v : Str, (∃ c ∈ v, ¬ goIsSpace c) → trimSpace v ≠ [] := by
    intro v hv hnil
    obtain ⟨c, hc, hnc⟩ := hv
    exact hnc ((trimSpace_eq_nil_iff v).mp hnil c hc)
  refine ⟨?_, ?_, ?_, ?_, ?_⟩
  · intro v hv
    unfold resolveURL
    simp [(trimSpace_eq_nil_iff v).mpr hv]
  · intro v u hv hset
    unfold resolveURL
    simp [hset, (trimSpace_eq_nil_iff v).mpr hv]
  · intro v hv
    unfold resolveURL
    simp [hne v hv]
  · intro v u hv hset
    unfold resolveURL
    simp [hset, hne v hv]
  · intro args p world goos pipe e hp hh hr
    exact run_resolve_error world goos pipe args p e hp hh hr

/-- Witness for the amended C4 at a concrete invocation. -/
theorem c4_blank_url_rejected_witness :
    run nullWorld linuxOS noPipe [chars "-u", chars "  "]
      = ⟨2, [], errEmptyURL ++ ['\n'] ++ usageText⟩ :=
  c4_blank_url_rejected.2.2.2.2 [chars "-u", chars "  "]
    ⟨false, false, false, ⟨chars "  ", true⟩, []⟩ nullWorld linuxOS noPipe errEmptyURL
    (by simp +decide [parseArgs, parseLoop, initParsed]) rfl (by decide)

end Ght

namespace Ght

/-- C5: a resolved URL lacking both the `http://` and the `https://` prefix
gets `https://` prepended before the GET (so bare `example.com` is fetched
as `https://example.com`), a URL with either prefix is fetched unchanged,
and the fetch consults the HTTP client only at the scheme-normalized URL. -/
theorem c5_scheme_normalization :
    (∀ u : Str, (chars "http://").isPrefixOf u = false →
      (chars "https://").isPrefixOf u = false →
      normalizeScheme u = chars "https://" ++ u)
    ∧ (∀ u : Str,
        ((chars "http://").isPrefixOf u || (chars "https://").isPrefixOf u) = true →
        normalizeScheme u = u)
    ∧ normalizeScheme (chars "example.com") = chars "https://example.com"
    ∧ (∀ (world world' : Str → HttpResult) (raw : Str),
        world (normalizeScheme raw) = world' (normalizeScheme raw) →
        fetchTitle world raw = fetchTitle world' raw) := by
  refine ⟨?_, ?_, by decide, ?_⟩
  · intro u h1 h2
    unfold normalizeScheme
    simp [h1, h2]
  · intro u h
    unfold normalizeScheme
    rcases Bool.or_eq_true_iff.mp h with h1 | h1 <;> simp [h1]
  · intro world world' raw h
    unfold fetchTitle
    rw [h]

/-- Witness for C5 at a concrete schemeless URL. -/
theorem c5_scheme_normalization_witness :
    normalizeScheme (chars "example.com") = chars "https://" ++ chars "example.com" :=
  c5_scheme_normalization.1 (chars "example.com") (by decide) (by decide)

/-- C6: the fetcher reads at most `2^21` bytes of the body (the cap
`maxBodyBytes = 2<<20`): the result on any 2xx response is the extraction
applied to the first `maxBodyBytes` bytes — a longer body is silently
truncated rather than an error — and two responses agreeing on those bytes
produce identical results. -/
theorem c6_body_read_capped :
    (∀ body : Str, (body.take maxBodyBytes).length ≤ maxBodyBytes)
    ∧ maxBodyBytes = 2 ^ 21
    ∧ (∀ (world : Str → HttpResult) (raw : Str) (statusCode : Nat)
        (status body : Str),
        world (normalizeScheme raw) = .response statusCode status body →
        fetchTitle world raw =
          if statusCode < 200 || 300 ≤ statusCode then .error (errHTTP status)
          else extractTitle (body.take maxBodyBytes))
    ∧ (∀ (world world' : Str → HttpResult) (raw : Str) (statusCode : Nat)
        (status body body' : Str),
        world (normalizeScheme raw) = .response statusCode status body →
        world' (normalizeScheme raw) = .response statusCode status body' →
        body.take maxBodyBytes = body'.take maxBodyBytes →
        fetchTitle world raw = fetchTitle world' raw) := by
  refine ⟨?_, by decide, ?_, ?_⟩
  · intro body
    simp [List.length_take]
  · intro world raw statusCode status body h
    unfold fetchTitle
    rw [h]
  · intro world world' raw statusCode status body body' h h' htake
    unfold fetchTitle
    rw [h, h']
    simp [htake]

/-- Witness for C6 at a concrete response. -/
theorem c6_body_read_capped_witness :
    fetchTitle exampleWorld (chars "example.com")
      = if (200 : Nat) < 200 || 300 ≤ (200 : Nat) then .error (errHTTP (chars "200 OK"))
        else extractTitle ((chars "<title>Example</title>").take maxBodyBytes) :=
  c6_body_read_capped.2.2.1 exampleWorld (chars "example.com") 200
    (chars "200 OK") (chars "<title>Example</title>") rfl

/-- C7: on a successfully read body, a missing title match fails with the
title-not-found error, a match whose normalized inner text is empty fails
with the title-was-empty error, and any fetch failure makes the program
exit with status 1 printing the message to stderr and nothing to stdout. -/
theorem c7_title_extraction_errors :
    (∀ body : Str, findTitleSub body = none → extractTitle body = .error errNoTitle)
    ∧ (∀ body inner : Str, findTitleSub body = some inner →
        joinWithSpace (fields (unescapeChars inner)) = [] →
        extractTitle body = .error errEmptyTitle)
    ∧ (∀ (args : List Str) (p : Parsed) (world : Str → HttpResult) (goos : Str)
        (pipe : Str → Str → List Str → Bool) (url e : Str),
        parseArgs args = .ok p → p.help = false →
        resolveURL p.positional p.urlArg = .ok url →
        fetchTitle world url = .error e →
        run world goos pipe args = ⟨1, [], e ++ ['\n']⟩) := by
  refine ⟨?_, ?_, ?_⟩
  · intro body h
    simp [extractTitle, h]
  · intro body inner h1 h2
    simp [extractTitle, h1, h2]
  · intro args p world goos pipe url e hp hh hr hf
    exact run_fetch_error world goos pipe args p url e hp hh hr hf

/-- Witness for C7: a body without a title element and a body with a blank
title both make the program exit 1 with the corresponding message. -/
theorem c7_title_extraction_errors_witness :
    run noTitleWorld linuxOS noPipe [chars "example.com"]
        = ⟨1, [], errNoTitle ++ ['\n']⟩
    ∧ run blankTitleWorld linuxOS noPipe [chars "example.com"]
        = ⟨1, [], errEmptyTitle ++ ['\n']⟩ :=
  ⟨c7_title_extraction_errors.2.2 [chars "example.com"]
      ⟨false, false, false, ⟨[], false⟩, [chars "example.com"]⟩
      noTitleWorld linuxOS noPipe (chars "example.com") errNoTitle
      (by simp +decide [parseArgs, parseLoop, initParsed]) rfl (by decide) (by decide),
   c7_title_extraction_errors.2.2 [chars "example.com"]
      ⟨false, false, false, ⟨[], false⟩, [chars "example.com"]⟩
      blankTitleWorld linuxOS noPipe (chars "example.com") errEmptyTitle
      (by simp +decide [parseArgs, parseLoop, initParsed]) rfl (by decide) (by decide)⟩

end Ght

namespace Ght

/-- C8, counterexample: in the argument list `-u -mc`, replacing the cluster
token `-mc` by the separate flags `-m -c` changes the parsed state, because
`-mc` was positioned as the value of the preceding `-u` flag, not parsed as
a cluster. -/
theorem c8_cluster_split_cex :
    parseArgs [chars "-u", chars "-mc"]
        = .ok ⟨false, false, false, ⟨chars "-mc", true⟩, []⟩
    ∧ parseArgs [chars "-u", chars "-m", chars "-c"]
        = .ok ⟨false, false, true, ⟨chars "-m", true⟩, []⟩
    ∧ (⟨false, false, false, ⟨chars "-mc", true⟩, []⟩ : Parsed)
        ≠ ⟨false, false, true, ⟨chars "-m", true⟩, []⟩ := by
  refine ⟨?_, ?_, by decide⟩ <;> simp +decide [parseArgs, parseLoop, initParsed]

/-- C8, amended: when the preceding arguments `pre` are self-delimiting
(their parse never consumes a following token, so the cluster token really
is parsed as a cluster), replacing one `{h,m,c}` cluster token by any
ordering or splitting of chunks carrying the same set of letters yields an
identical parsed state — same help, markdown and copy flags, same URL flag
and same positionals. -/
theorem c8_cluster_split_equiv
    (pre post : List Str) (st : Parsed) (cs : List Char) (chunks : List (List Char))
    (hpre : ∀ tail, parseLoop (pre ++ tail) initParsed = parseLoop tail st)
    (hne : cs ≠ []) (hhmc : ∀ c ∈ cs, isHMC c)
    (hch : ∀ ch ∈ chunks, ch ≠ [] ∧ ∀ c ∈ ch, isHMC c)
    (hh : cs.contains 'h' = chunks.flatten.contains 'h')
    (hm : cs.contains 'm' = chunks.flatten.contains 'm')
    (hc : cs.contains 'c' = chunks.flatten.contains 'c') :
    parseArgs (pre ++ ('-' :: cs) :: post)
      = parseArgs (pre ++ chunks.map (fun ch => '-' :: ch) ++ post) := by
  have hflat : ∀ c ∈ chunks.flatten, isHMC c := by
    intro c hcmem
    obtain ⟨l, hl, hcl⟩ := List.mem_flatten.mp hcmem
    exact (hch l hl).2 c hcl
  unfold parseArgs
  rw [List.append_assoc, hpre, hpre, parseLoop_cluster_tok cs post st hne hhmc,
    parseLoop_chunks chunks post st hch, applyLetters_eq cs st hhmc,
    applyLetters_eq chunks.flatten st hflat, hh, hm, hc]

/-- Witness for the amended C8: `-mc x` parses like `-c -m x`. -/
theorem c8_cluster_split_equiv_witness :
    parseArgs [chars "-mc", chars "x"] = parseArgs [chars "-c", chars "-m", chars "x"] :=
  c8_cluster_split_equiv [] [chars "x"] initParsed ['m', 'c'] [['c'], ['m']]
    (fun tail => by rw [List.nil_append]) (by decide) (by decide) (by decide)
    (by decide) (by decide) (by decide)

/-- C9: with the copy flag set and a successful fetch, the formatted title
is on stdout whatever the clipboard oracle does (so a clipboard failure
leaves stdout unchanged), a failing clipboard step makes the process exit 1
with a warning on stderr, and when no candidate pipe succeeds the clipboard
step fails with its aggregate error. -/
theorem c9_copy_flag_frame
    (args : List Str) (p : Parsed) (world : Str → HttpResult) (goos : Str)
    (pipe pipe' : Str → Str → List Str → Bool) (url title : Str)
    (hp : parseArgs args = .ok p) (hh : p.help = false)
    (hr : resolveURL p.positional p.urlArg = .ok url)
    (hf : fetchTitle world url = .ok title)
    (hcopy : p.copyOut = true) :
    ((run world goos pipe args).stdout = formatOutput p.markdown title url ++ ['\n'])
    ∧ (∀ e : Str, copyToClipboard goos pipe (formatOutput p.markdown title url) = .error e →
        run world goos pipe args
          = ⟨1, formatOutput p.markdown title url ++ ['\n'],
              chars "clipboard copy failed: " ++ e ++ ['\n']⟩)
    ∧ ((run world goos pipe args).stdout = (run world goos pipe' args).stdout)
    ∧ ((∀ c ∈ clipboardCommands goos,
          pipe (formatOutput p.markdown title url) c.name c.args = false) →
        copyToClipboard goos pipe (formatOutput p.markdown title url)
          = .error errClipboard) := by
  have hstd : ∀ pp : Str → Str → List Str → Bool,
      (run world goos pp args).stdout = formatOutput p.markdown title url ++ ['\n'] := by
    intro pp
    cases hclip : copyToClipboard goos pp (formatOutput p.markdown title url) with
    | error ce =>
      rw [run_success_copy_fail world goos pp args p url title ce hp hh hr hf hcopy hclip]
    | ok u =>
      cases u
      rw [run_success_copy_ok world goos pp args p url title hp hh hr hf hcopy hclip]
  refine ⟨hstd pipe, ?_, by rw [hstd pipe, hstd pipe'], ?_⟩
  · intro e hclip
    exact run_success_copy_fail world goos pipe args p url title e hp hh hr hf hcopy hclip
  · intro hall
    exact tryClipboard_all_fail pipe (formatOutput p.markdown title url) _ hall

/-- Witness for C9 at a concrete invocation with no clipboard helper
available. -/
theorem c9_copy_flag_frame_witness :
    run exampleWorld linuxOS noPipe [chars "-c", chars "example.com"]
      = ⟨1, chars "Example" ++ ['\n'],
          chars "clipboard copy failed: " ++ errClipboard ++ ['\n']⟩ :=
  (c9_copy_flag_frame [chars "-c", chars "example.com"]
      ⟨false, false, true, ⟨[], false⟩, [chars "example.com"]⟩
      exampleWorld linuxOS noPipe noPipe (chars "example.com") (chars "Example")
      (by simp +decide [parseArgs, parseLoop, initParsed]) rfl (by decide)
      (by decide) rfl).2.1 errClipboard (by decide)

/-- C10: when parsing succeeds with the help flag set, the program prints
the usage text to stdout and exits 0, with a result independent of the HTTP
and clipboard oracles (no resolution, fetch or clipboard access happens)
and of any other flags or positionals; a parse error instead exits 2 with
the usage text on stderr, even when the arguments contain `-h`. -/
theorem c10_help_short_circuit
    (args1 args2 : List Str) (p : Parsed) (e : Str) (world : Str → HttpResult)
    (goos : Str) (pipe : Str → Str → List Str → Bool) :
    (parseArgs args1 = .ok p → p.help = true →
      run world goos pipe args1 = ⟨0, usageText, []⟩)
    ∧ (parseArgs args2 = .error e → run world goos pipe args2 = ⟨2, [], usageText⟩) := by
  constructor
  · intro hp hh
    unfold run
    rw [hp]
    simp [hh]
  · intro hp
    unfold run
    rw [hp]

/-- Witness for C10: `-h -m nope` prints usage and exits 0 although the
positional is no fetchable URL; `-h -z` is a parse error and exits 2
although `-h` is present. -/
theorem c10_help_short_circuit_witness :
    run nullWorld linuxOS noPipe [chars "-h", chars "-m", chars "nope"]
        = ⟨0, usageText, []⟩
    ∧ run nullWorld linuxOS noPipe [chars "-h", chars "-z"] = ⟨2, [], usageText⟩ :=
  ⟨(c10_help_short_circuit [chars "-h", chars "-m", chars "nope"] [chars "-h", chars "-z"]
      ⟨true, true, false, ⟨[], false⟩, [chars "nope"]⟩ errUnknownOption
      nullWorld linuxOS noPipe).1
      (by simp +decide [parseArgs, parseLoop, initParsed]) rfl,
   (c10_help_short_circuit [chars "-h", chars "-m", chars "nope"] [chars "-h", chars "-z"]
      ⟨true, true, false, ⟨[], false⟩, [chars "nope"]⟩ errUnknownOption
      nullWorld linuxOS noPipe).2
      (by simp +decide [parseArgs, parseLoop, initParsed])⟩

end Ght
